import Mathlib

/-!
# The OpenGL backend of the graphics abstraction layer (`lib/ivis_opengl/gfx_api_gl.cpp`)

A shallow embedding of the enum translators `to_gl`, of `gl_texture`, `gl_buffer` and
`gl_context`, over an explicit model of the driver state the OpenGL entry points act on.

Conventions of the embedding.

* `size_t` is a 64-bit unsigned word.  Values are natural numbers; the one place where the
  source does arithmetic on them (`start + size` in `gl_buffer::update`) wraps modulo `2^64`.
* A `const void *` argument is modelled by the memory it addresses: a function from byte
  offsets to bytes.
* The driver is an idealised OpenGL: every entry point appends itself to a chronological
  trace, and acts on the object currently bound to its target.  Driver-level failures
  (out of memory, the no-object name 0, invalid values) are outside the model, except that a
  sub-range write which does not fit the data store leaves the store as it was.
* The texture entry points take 32-bit signed parameters (`GLint`, `GLsizei`): the `size_t`
  and `unsigned` arguments the source passes are narrowed by `to_GLint` / `to_GLsizei`, and
  the trace holds the narrowed values.  The buffer entry points take 64-bit parameters
  (`GLintptr`, `GLsizeiptr`); their `size_t` arguments are kept as the caller's values.
* `floor(log(x))` is computed in `double`: the `size_t` argument is converted to the nearest
  double (ties to even, `to_double`) and `log` of `<cmath>` is taken to be the correctly
  rounded natural logarithm (`floor_log`).
-/

namespace gfx_api

/-- Modelled from the spec: the enum `gfx_api::pixel_format` is declared in `gfx_api.h`, a header
that is not among the files verified here.  The four named enumerators are the ones the spec lists
and `to_gl` switches on; `unrecognised` stands for any other value a C++ enum object can
hold, which is what the `default:` branch of `to_gl` receives. -/
inductive pixel_format where
  | rgba
  | rgb
  | compressed_rgb
  | compressed_rgba
  | unrecognised (raw : Nat)
  deriving DecidableEq, Repr

/-- The four named enumerators of `pixel_format`. -/
def pixel_format.valid : pixel_format → Bool
  | .unrecognised _ => false
  | _ => true

namespace buffer

/-- Modelled from the spec: the enum `gfx_api::buffer::usage` of `gfx_api.h` (two named
enumerators, `unrecognised` for any other value). -/
inductive usage where
  | vertex_buffer
  | index_buffer
  | unrecognised (raw : Nat)
  deriving DecidableEq, Repr

/-- The two named enumerators of `buffer::usage`. -/
def usage.valid : usage → Bool
  | .unrecognised _ => false
  | _ => true

end buffer

namespace context

/-- Modelled from the spec: the enum `gfx_api::context::buffer_storage_hint` of `gfx_api.h`
(three named enumerators, `unrecognised` for any other value). -/
inductive buffer_storage_hint where
  | static_draw
  | dynamic_draw
  | stream_draw
  | unrecognised (raw : Nat)
  deriving DecidableEq, Repr

/-- The three named enumerators of `context::buffer_storage_hint`. -/
def buffer_storage_hint.valid : buffer_storage_hint → Bool
  | .unrecognised _ => false
  | _ => true

end context

end gfx_api

/-! ## OpenGL constants (`GL/glew.h`) -/

abbrev GLenum := Nat
abbrev GLuint := Nat

def GL_INVALID_ENUM : GLenum := 0x0500
def GL_TEXTURE_2D : GLenum := 0x0DE1
def GL_UNSIGNED_BYTE : GLenum := 0x1401
def GL_TEXTURE : GLenum := 0x1702
def GL_RGB : GLenum := 0x1907
def GL_RGBA : GLenum := 0x1908
def GL_RGB_S3TC : GLenum := 0x83A0
def GL_RGBA_S3TC : GLenum := 0x83A2
def GL_ARRAY_BUFFER : GLenum := 0x8892
def GL_ELEMENT_ARRAY_BUFFER : GLenum := 0x8893
def GL_STREAM_DRAW : GLenum := 0x88E0
def GL_STATIC_DRAW : GLenum := 0x88E4
def GL_DYNAMIC_DRAW : GLenum := 0x88E8

/-! ## Memory and the driver state -/

abbrev Byte := Fin 256

/-- A `const void *`: the bytes found at each offset from the pointer. -/
abbrev Ptr := Nat → Byte

/-- The `n` bytes starting at `p`. -/
def bytes_at (p : Ptr) (n : Nat) : List Byte := (List.range n).map p

/-- The value a `size_t` or `unsigned` argument has after the implicit conversion to a
32-bit signed `GLint` parameter: reduced modulo `2^32` into `[-2^31, 2^31)`. -/
def to_GLint (x : Nat) : Int :=
  if x % 2 ^ 32 < 2 ^ 31 then Int.ofNat (x % 2 ^ 32)
  else Int.negSucc (2 ^ 32 - x % 2 ^ 32 - 1)

/-- The conversion to a `GLsizei` parameter, a 32-bit signed integer like `GLint`. -/
def to_GLsizei (x : Nat) : Int := to_GLint x

/-- One invocation of a driver entry point, with its arguments (pointer arguments left
out). -/
inductive GLCall where
  | GenTextures (name : GLuint)
  | BindTexture (target : GLenum) (texture : GLuint)
  | ObjectLabel (identifier : GLenum) (name : GLuint) (label : String)
  | TexImage2D (target : GLenum) (level : Int) (internalformat : GLenum)
      (width height : Int) (border : Nat) (format type : GLenum)
  | TexSubImage2D (target : GLenum) (level xoffset yoffset width height : Int)
      (format type : GLenum)
  | GenerateMipmap (target : GLenum)
  | GenBuffers (name : GLuint)
  | BindBuffer (target : GLenum) (buffer : GLuint)
  | BufferData (target : GLenum) (size : Nat) (usage : GLenum)
  | BufferSubData (target : GLenum) (offset size : Nat)
  deriving DecidableEq, Repr

/-- A change made to one texture object. -/
inductive TexWrite where
  | image (level : Int) (internalformat : GLenum) (width height : Int)
  | sub_image (level xoffset yoffset width height : Int) (format : GLenum)
  | mipmap
  deriving DecidableEq, Repr

/-- The data store of one buffer object. -/
structure BufferStore where
  data : List Byte
  usage : GLenum
  deriving DecidableEq, Repr

/-- The part of the OpenGL state the backend touches. -/
structure GLState where
  /-- the texture bound to `GL_TEXTURE_2D` -/
  texture_binding_2d : GLuint
  /-- the buffer bound to `GL_ARRAY_BUFFER` -/
  array_buffer_binding : GLuint
  /-- the buffer bound to `GL_ELEMENT_ARRAY_BUFFER` -/
  element_array_buffer_binding : GLuint
  /-- the data store of each buffer object, `none` while it has none -/
  buffer_store : GLuint → Option BufferStore
  /-- the changes made to each texture object, oldest first -/
  texture_writes : GLuint → List TexWrite
  /-- the next unused object name -/
  next_name : GLuint
  /-- whether `GLEW_VERSION_4_3 || GLEW_KHR_debug` holds -/
  debug_labels : Bool
  /-- every entry point invoked so far, oldest first -/
  calls : List GLCall

namespace GLState

def record (gl : GLState) (c : GLCall) : GLState :=
  { gl with calls := gl.calls ++ [c] }

/-- The buffer bound to `target`, when `target` is a buffer binding point. -/
def bound_buffer (gl : GLState) (target : GLenum) : Option GLuint :=
  if target = GL_ARRAY_BUFFER then some gl.array_buffer_binding
  else if target = GL_ELEMENT_ARRAY_BUFFER then some gl.element_array_buffer_binding
  else none

/-- The texture bound to `target`, when `target` is `GL_TEXTURE_2D`. -/
def bound_texture (gl : GLState) (target : GLenum) : Option GLuint :=
  if target = GL_TEXTURE_2D then some gl.texture_binding_2d else none

def set_buffer_store (gl : GLState) (name : GLuint) (s : BufferStore) : GLState :=
  { gl with buffer_store := fun n => if n = name then some s else gl.buffer_store n }

def add_texture_write (gl : GLState) (name : GLuint) (t : TexWrite) : GLState :=
  { gl with texture_writes :=
      fun n => if n = name then gl.texture_writes n ++ [t] else gl.texture_writes n }

def glGenTextures (gl : GLState) : GLuint × GLState :=
  (gl.next_name, { gl with next_name := gl.next_name + 1 }.record (.GenTextures gl.next_name))

def glGenBuffers (gl : GLState) : GLuint × GLState :=
  (gl.next_name, { gl with next_name := gl.next_name + 1 }.record (.GenBuffers gl.next_name))

def glBindTexture (gl : GLState) (target : GLenum) (texture : GLuint) : GLState :=
  (if target = GL_TEXTURE_2D then { gl with texture_binding_2d := texture } else gl).record
    (.BindTexture target texture)

def glBindBuffer (gl : GLState) (target : GLenum) (buffer : GLuint) : GLState :=
  (if target = GL_ARRAY_BUFFER then { gl with array_buffer_binding := buffer }
   else if target = GL_ELEMENT_ARRAY_BUFFER then { gl with element_array_buffer_binding := buffer }
   else gl).record (.BindBuffer target buffer)

def glObjectLabel (gl : GLState) (identifier : GLenum) (name : GLuint) (label : String) :
    GLState :=
  gl.record (.ObjectLabel identifier name label)

/-- Allocates the image of one mip level of the texture bound to `target` (no pixel data:
the source passes `nullptr`). -/
def glTexImage2D (gl : GLState) (target : GLenum) (level : Int) (internalformat : GLenum)
    (width height : Int) (border : Nat) (format type : GLenum) : GLState :=
  (match gl.bound_texture target with
   | some t => gl.add_texture_write t (.image level internalformat width height)
   | none => gl).record
    (.TexImage2D target level internalformat width height border format type)

/-- Writes a rectangle of one mip level of the texture bound to `target`. -/
def glTexSubImage2D (gl : GLState) (target : GLenum) (level xoffset yoffset width height : Int)
    (format type : GLenum) (_pixels : Ptr) : GLState :=
  (match gl.bound_texture target with
   | some t => gl.add_texture_write t (.sub_image level xoffset yoffset width height format)
   | none => gl).record
    (.TexSubImage2D target level xoffset yoffset width height format type)

/-- Derives the lower mip levels of the texture bound to `target`. -/
def glGenerateMipmap (gl : GLState) (target : GLenum) : GLState :=
  (match gl.bound_texture target with
   | some t => gl.add_texture_write t .mipmap
   | none => gl).record (.GenerateMipmap target)

/-- Replaces the data store of the buffer bound to `target` by `size` bytes read from
`data`. -/
def glBufferData (gl : GLState) (target : GLenum) (size : Nat) (data : Ptr) (usage : GLenum) :
    GLState :=
  (match gl.bound_buffer target with
   | some b => gl.set_buffer_store b { data := bytes_at data size, usage := usage }
   | none => gl).record (.BufferData target size usage)

/-- Overwrites the bytes `[offset, offset + size)` of the data store of the buffer bound to
`target`; a range that does not fit the store leaves it as it was. -/
def glBufferSubData (gl : GLState) (target : GLenum) (offset size : Nat) (data : Ptr) :
    GLState :=
  (match gl.bound_buffer target with
   | some b =>
     match gl.buffer_store b with
     | some s =>
       if offset + size ≤ s.data.length then
         gl.set_buffer_store b
           { s with data := s.data.take offset ++ bytes_at data size ++ s.data.drop (offset + size) }
       else gl
     | none => gl
   | none => gl).record (.BufferSubData target offset size)

end GLState

/-! ## Program state, fatal errors and logging (`lib/framework/debug.h`) -/

/-- Why the process was terminated. -/
inductive FatalCause where
  /-- a `debug(LOG_FATAL, message)` -/
  | log_fatal (message : String)
  /-- an `ASSERT(expr, message)` whose `expr` was false -/
  | assertion (expr : String)
  deriving DecidableEq, Repr

/-- Everything outside the resource objects: the driver and the debug log. -/
structure World where
  gl : GLState
  /-- the `LOG_WARNING` messages written so far, oldest first -/
  warnings : List String

/-- How a call ends: it returns `value` in world `w`, or the process is terminated for
`cause` in world `w`. -/
inductive Outcome (α : Type) where
  | returned (value : α) (w : World)
  | fatal (cause : FatalCause) (w : World)

/-- A computation that may act on the world and may terminate the process. -/
def Exec (α : Type) : Type := World → Outcome α

namespace Exec

def ret {α : Type} (a : α) : Exec α := fun w => .returned a w

def andThen {α β : Type} (x : Exec α) (f : α → Exec β) : Exec β := fun w =>
  match x w with
  | .returned a w' => f a w'
  | .fatal c w' => .fatal c w'

instance : Monad Exec where
  pure := ret
  bind := andThen

/-- Runs one driver entry point that returns nothing. -/
def gl (f : GLState → GLState) : Exec Unit :=
  fun w => .returned () { w with gl := f w.gl }

/-- Runs one driver entry point that returns a value. -/
def gl_get {α : Type} (f : GLState → α × GLState) : Exec α :=
  fun w => .returned (f w.gl).1 { w with gl := (f w.gl).2 }

/-- Reads the driver state. -/
def gl_read {α : Type} (f : GLState → α) : Exec α :=
  fun w => .returned (f w.gl) w

end Exec

/-- Modelled from the spec: `debug(LOG_FATAL, message)` of `lib/framework/debug.h` (a header
not among the files verified here); by the spec an unrecognised enum value "terminates the process after
logging". -/
def debug_LOG_FATAL {α : Type} (message : String) : Exec α :=
  fun w => .fatal (.log_fatal message) w

/-- Modelled from the spec: `debug(LOG_WARNING, message)` of `lib/framework/debug.h`: the
message is logged and execution continues. -/
def debug_LOG_WARNING (message : String) : Exec Unit :=
  fun w => .returned () { w with warnings := w.warnings ++ [message] }

/-- Modelled from the spec: the `ASSERT(expr, ...)` of `lib/framework/debug.h`; by the spec the
preconditions of `update` are "enforced with a fatal assertion (programming error, not
recoverable)". -/
def ASSERT (cond : Bool) (expr : String) : Exec Unit :=
  fun w => if cond then .returned () w else .fatal (.assertion expr) w

/-! ## The enum translators -/

/-- The translator `static GLenum to_gl(const gfx_api::pixel_format& format)`. -/
def gfx_api.pixel_format.to_gl (format : gfx_api.pixel_format) : Exec GLenum :=
  match format with
  | .rgba => pure GL_RGBA
  | .rgb => pure GL_RGB
  | .compressed_rgb => pure GL_RGB_S3TC
  | .compressed_rgba => pure GL_RGBA_S3TC
  | .unrecognised _ => debug_LOG_FATAL "Unrecognised pixel format"

/-- The translator `static GLenum to_gl(const gfx_api::context::buffer_storage_hint& hint)`. -/
def gfx_api.context.buffer_storage_hint.to_gl (hint : gfx_api.context.buffer_storage_hint) :
    Exec GLenum :=
  match hint with
  | .static_draw => pure GL_STATIC_DRAW
  | .dynamic_draw => pure GL_DYNAMIC_DRAW
  | .stream_draw => pure GL_STREAM_DRAW
  | .unrecognised _ => debug_LOG_FATAL "Unsupported buffer hint"

/-- The translator `static GLenum to_gl(const gfx_api::buffer::usage& usage)`. -/
def gfx_api.buffer.usage.to_gl (usage : gfx_api.buffer.usage) : Exec GLenum :=
  match usage with
  | .index_buffer => pure GL_ELEMENT_ARRAY_BUFFER
  | .vertex_buffer => pure GL_ARRAY_BUFFER
  | .unrecognised _ => debug_LOG_FATAL "Unrecognised buffer usage"

/-! ## `struct gl_texture` -/

structure gl_texture where
  _id : GLuint
  deriving DecidableEq, Repr

namespace gl_texture

/-- The constructor `gl_texture()`: `glGenTextures(1, &_id)`. -/
def new : Exec gl_texture := do
  let name ← Exec.gl_get GLState.glGenTextures
  pure { _id := name }

/-- The method `void bind()`. -/
def bind (self : gl_texture) : Exec Unit :=
  Exec.gl (fun gl => gl.glBindTexture GL_TEXTURE_2D self._id)

/-- The method
`void upload(mip_level, offset_x, offset_y, width, height, buffer_format, data)`; the
`size_t` arguments are narrowed to the `GLint` and `GLsizei` parameters of
`glTexSubImage2D`. -/
def upload (self : gl_texture) (mip_level offset_x offset_y width height : Nat)
    (buffer_format : gfx_api.pixel_format) (data : Ptr) : Exec Unit := do
  self.bind
  let format ← buffer_format.to_gl
  Exec.gl (fun gl => gl.glTexSubImage2D GL_TEXTURE_2D (to_GLint mip_level) (to_GLint offset_x)
    (to_GLint offset_y) (to_GLsizei width) (to_GLsizei height) format GL_UNSIGNED_BYTE data)

/-- The method `unsigned id()`. -/
def id (self : gl_texture) : GLuint := self._id

/-- The method `void generate_mip_levels()`. -/
def generate_mip_levels (_self : gl_texture) : Exec Unit :=
  Exec.gl (fun gl => gl.glGenerateMipmap GL_TEXTURE_2D)

end gl_texture

/-! ## `struct gl_buffer` -/

/-- The number of values of a `size_t` (64 bits). -/
def SIZE_T_RANGE : Nat := 2 ^ 64

structure gl_buffer where
  usage : gfx_api.buffer.usage
  hint : gfx_api.context.buffer_storage_hint
  buffer : GLuint := 0
  buffer_size : Nat := 0
  deriving DecidableEq, Repr

namespace gl_buffer

/-- The constructor `gl_buffer(usage, hint)`: `glGenBuffers(1, &buffer)`. -/
def new (usage : gfx_api.buffer.usage) (hint : gfx_api.context.buffer_storage_hint) :
    Exec gl_buffer := do
  let name ← Exec.gl_get GLState.glGenBuffers
  pure { usage := usage, hint := hint, buffer := name, buffer_size := 0 }

/-- The method `void bind()`. -/
def bind (self : gl_buffer) : Exec Unit := do
  let target ← self.usage.to_gl
  Exec.gl (fun gl => gl.glBindBuffer target self.buffer)

/-- The method `void upload(const size_t & size, const void * data)`; returns the object
with its updated fields. -/
def upload (self : gl_buffer) (size : Nat) (data : Ptr) : Exec gl_buffer := do
  let target ← self.usage.to_gl
  Exec.gl (fun gl => gl.glBindBuffer target self.buffer)
  let target ← self.usage.to_gl
  let hint ← self.hint.to_gl
  Exec.gl (fun gl => gl.glBufferData target size data hint)
  pure { self with buffer_size := size }

/-- The method `void update(const size_t & start, const size_t & size, const void * data)`;
the sum `start + size` is a `size_t` and wraps. -/
def update (self : gl_buffer) (start size : Nat) (data : Ptr) : Exec Unit := do
  ASSERT (start < self.buffer_size) "start < buffer_size"
  ASSERT ((start + size) % SIZE_T_RANGE ≤ self.buffer_size) "start + size <= buffer_size"
  if size = 0 then
    debug_LOG_WARNING "Attempt to update buffer with 0 bytes of new data"
  else
    let target ← self.usage.to_gl
    Exec.gl (fun gl => gl.glBindBuffer target self.buffer)
    let target ← self.usage.to_gl
    Exec.gl (fun gl => gl.glBufferSubData target start size data)

end gl_buffer

/-! ## `struct gl_context` -/

/-- Rounds `x` to a multiple of `2^s`, to the nearest one and on a tie to the one with an
even quotient. -/
def round_at (x s : Nat) : Nat :=
  if 2 ^ s < 2 * (x % 2 ^ s) ∨ (2 * (x % 2 ^ s) = 2 ^ s ∧ (x / 2 ^ s) % 2 = 1) then
    (x / 2 ^ s + 1) * 2 ^ s
  else x / 2 ^ s * 2 ^ s

/-- Searches the binade of `x`: with `x >= 2^(52+s)`, rounds at `2^s` when `x < 2^(53+s)`
and tries `s + 1` otherwise, `n` more times. -/
def to_double_from (x : Nat) : Nat → Nat → Nat
  | 0, s => round_at x s
  | n + 1, s => if x < 2 ^ (53 + s) then round_at x s else to_double_from x n (s + 1)

/-- The conversion of a 64-bit `size_t` to `double`: the nearest number with a 53-bit
significand, ties to even.  The result is an integer (it is `x` itself below `2^53`). -/
def to_double (x : Nat) : Nat := to_double_from x 11 0

/-- The least integer-valued double `y` whose correctly rounded natural logarithm is at
least `k`, for `k = 1, ..., 44`: the least double above `exp(k - h)`, where `k - h` is the
midpoint of `k` and the double just below it.  Up to `k = 32` this is the least integer
above `e^k`; from `k = 33` on it is smaller, because `log` rounds up to `k` there. -/
def exp_round : List Nat :=
  [3, 8, 21, 55, 149, 404, 1097, 2981, 8104, 22027, 59875, 162755, 442414, 1202605, 3269018,
   8886111, 24154953, 65659970, 178482301, 485165196, 1318815735, 3584912847, 9744803447,
   26489122130, 72004899338, 195729609429, 532048240602, 1446257064292, 3931334297145,
   10686474581525, 29048849665248, 78962960182681, 214643579785916, 583461742527453,
   1586013452313426, 4311231547115180, 11719142372802570, 31855931757113644,
   86593400423993440, 235385266837019168, 639843493530052736, 1739274941520495104,
   4727839468229329920, 12851600114359263232]

/-- The value of `floor(log(x))` for a `size_t` value `x >= 1`, computed in `double` as the
source does: `x` is converted to `double`, and the floor of its rounded logarithm is the
number of `k >= 1` whose threshold `exp_round` the converted value reaches. -/
def floor_log (x : Nat) : Nat := exp_round.countP (fun t => t ≤ to_double x)

/-- The bound `floor(log(std::max(width, height))) + 1` of the loop of `create_texture`.
For `max = 0` the source's `log` is minus infinity and the loop body never runs. -/
def mip_loop_bound (width height : Nat) : Nat :=
  if max width height = 0 then 0 else floor_log (max width height) + 1

namespace gl_context

/-- The body of the loop of `create_texture` at index `i`.  The `unsigned` index and the
`size_t` dimensions `width >> i`, `height >> i` are narrowed to the `GLint level` and the
`GLsizei width`, `height` of `glTexImage2D`; the `GLenum` that `to_gl` returns is below `2^31`
and is the same number as a `GLint internalformat`. -/
def create_texture_level (width height : Nat) (internal_format : gfx_api.pixel_format)
    (i : Nat) : Exec Unit := do
  let internalformat ← internal_format.to_gl
  let format ← internal_format.to_gl
  Exec.gl (fun gl => gl.glTexImage2D GL_TEXTURE_2D (to_GLint i) internalformat
    (to_GLsizei (width >>> i)) (to_GLsizei (height >>> i)) 0 format GL_UNSIGNED_BYTE)

/-- Runs `body i` for each `i` of `indices` in turn: `for (unsigned i = 0; i < n; ++i)` is
`for_each (List.range n)`. -/
def for_each (body : Nat → Exec Unit) : List Nat → Exec Unit
  | [] => pure ()
  | i :: rest => do
    body i
    for_each body rest

/-- The factory `gfx_api::texture* create_texture(width, height, internal_format, filename)`. -/
def create_texture (width height : Nat) (internal_format : gfx_api.pixel_format)
    (filename : String) : Exec gl_texture := do
  let new_texture ← gl_texture.new
  new_texture.bind
  let labels ← Exec.gl_read (fun gl => gl.debug_labels)
  if !filename.isEmpty && labels then
    Exec.gl (fun gl => gl.glObjectLabel GL_TEXTURE new_texture.id filename)
  for_each (create_texture_level width height internal_format)
    (List.range (mip_loop_bound width height))
  pure new_texture

/-- The factory `gfx_api::buffer* create_buffer_object(usage, hint = static_draw)`. -/
def create_buffer_object (usage : gfx_api.buffer.usage)
    (hint : gfx_api.context.buffer_storage_hint := .static_draw) : Exec gl_buffer :=
  gl_buffer.new usage hint

end gl_context

/-! ## Observations used to state the properties -/

/-- A driver with no objects, nothing bound and an empty trace. -/
def GLState.initial (debug_labels : Bool) : GLState where
  texture_binding_2d := 0
  array_buffer_binding := 0
  element_array_buffer_binding := 0
  buffer_store := fun _ => none
  texture_writes := fun _ => []
  next_name := 1
  debug_labels := debug_labels
  calls := []

def World.initial (debug_labels : Bool) : World where
  gl := GLState.initial debug_labels
  warnings := []

/-- The world a call ended in. -/
def Outcome.world {α : Type} : Outcome α → World
  | .returned _ w => w
  | .fatal _ w => w

/-- The mip levels allocated by the `glTexImage2D` calls of a trace, as
`(level, width, height)` in call order. -/
def tex_image_levels : List GLCall → List (Int × Int × Int)
  | [] => []
  | .TexImage2D _ level _ width height _ _ _ :: rest => (level, width, height) :: tex_image_levels rest
  | _ :: rest => tex_image_levels rest

/-- The `glBufferSubData` calls of a trace, as `(offset, size)` in call order. -/
def buffer_sub_data_ranges : List GLCall → List (Nat × Nat)
  | [] => []
  | .BufferSubData _ offset size :: rest => (offset, size) :: buffer_sub_data_ranges rest
  | _ :: rest => buffer_sub_data_ranges rest

/-! ## The exact logarithm and rational bounds on `e`, used to validate `exp_round` -/

/-- The least integer that is at least `e^k`, for `k = 1, ..., 44`; `e^45` exceeds `2^64`. -/
def exp_ceil : List Nat :=
  [3, 8, 21, 55, 149, 404, 1097, 2981, 8104, 22027, 59875, 162755, 442414, 1202605, 3269018,
   8886111, 24154953, 65659970, 178482301, 485165196, 1318815735, 3584912847, 9744803447,
   26489122130, 72004899338, 195729609429, 532048240602, 1446257064292, 3931334297145,
   10686474581525, 29048849665248, 78962960182681, 214643579785917, 583461742527455,
   1586013452313431, 4311231547115196, 11719142372802612, 31855931757113757,
   86593400423993747, 235385266837019986, 639843493530054950, 1739274941520501048,
   4727839468229346562, 12851600114359308276]

/-- The floor of the real natural logarithm of `x >= 1`, without any rounding: the number
of `k >= 1` with `e^k <= x`. -/
def floor_log_exact (x : Nat) : Nat := exp_ceil.countP (fun t => t ≤ x)

/-- The common denominator of the two bounds on `e`. -/
def E_DEN : Nat := 10 ^ 25

/-- The numerator of a lower bound on `e`: `e` truncated to 25 decimals. -/
def E_LO : Nat := 27182818284590452353602874

/-- The numerator of an upper bound on `e`. -/
def E_HI : Nat := 27182818284590452353602875

/-- Checks `t - 1 < (E_LO / E_DEN)^k` and `(E_HI / E_DEN)^k <= t` in integer arithmetic:
together with `E_LO / E_DEN < e < E_HI / E_DEN` they say that `t` is the least integer
above `e^k`. -/
def exp_ceil_check (k t : Nat) : Bool :=
  decide (t * E_DEN ^ k < E_LO ^ k + E_DEN ^ k) && decide (E_HI ^ k ≤ t * E_DEN ^ k)

/-- The table `exp_ceil` with the exponent of each entry. -/
def exp_ceil_indexed : List (Nat × Nat) := List.zip (List.range' 1 44) exp_ceil

/-- The table `exp_round` with the exponent of each entry. -/
def exp_round_indexed : List (Nat × Nat) := List.zip (List.range' 1 44) exp_round

/-- The exponent `a` for which `k - 2^(-a)` is the midpoint of `k` and the double just below
it (`1 <= k < 64`): with `2^j <= k < 2^(j+1)` the doubles below `k` are `2^(j-52)` apart,
and `2^(j-53)` apart when `k = 2^j`. -/
def half_ulp_exponent (k : Nat) : Nat :=
  if k ∈ [1, 2, 4, 8, 16, 32] then 54 - [2, 4, 8, 16, 32].countP (fun t => t ≤ k)
  else 53 - [2, 4, 8, 16, 32].countP (fun t => t ≤ k)

/-- The distance from an integer-valued double `1 <= y <= 2^64` to the double just below
it. -/
def double_gap_below (y : Nat) : Nat :=
  2 ^ (List.range' 53 11).countP (fun j => 2 ^ j < y)

/-- Checks in integer arithmetic that `t` and `t - gap` are doubles and that
`t - gap < (E_LO / E_DEN)^k * (1 - 2^(-a))` and `(E_HI / E_DEN)^k / (1 + 2^(-a)) < t`,
with `a = half_ulp_exponent k`: then `t - gap < exp(k - 2^(-a)) < t`. -/
def exp_round_check (k t : Nat) : Bool :=
  decide (to_double t = t) && decide (to_double (t - double_gap_below t) = t - double_gap_below t)
    && decide ((t - double_gap_below t) * E_DEN ^ k * 2 ^ half_ulp_exponent k
        < E_LO ^ k * (2 ^ half_ulp_exponent k - 1))
    && decide (E_HI ^ k * 2 ^ half_ulp_exponent k
        < t * E_DEN ^ k * (2 ^ half_ulp_exponent k + 1))

/-- Checks that the threshold `t` of exponent `k` is at least `2^k`. -/
def exp_round_pow_check (k t : Nat) : Bool := decide (2 ^ k ≤ t) && decide (k < 53)

/-- Checks that the rounded threshold `r` is not above the exact threshold `t`, and is below
it by more than the rounding of the conversion to `double` when it is above `2^53`. -/
def exp_round_below_check (t r : Nat) : Bool :=
  decide (r ≤ t) && (decide (r ≤ 2 ^ 53) || decide (r * 2 ^ 53 ≤ t * (2 ^ 53 - 1)))

/-- The exact and the rounded threshold of each exponent. -/
def exp_ceil_round : List (Nat × Nat) := List.zip exp_ceil exp_round

/-- The rounded threshold of exponent `k + 1` with the exact threshold of exponent `k`. -/
def exp_round_next_ceil : List (Nat × Nat) := List.zip exp_round.tail exp_ceil

/-! ## Scenarios -/

/-- Some memory to upload from: byte `i` holds `i mod 256`. -/
def sample_bytes : Ptr := fun i => Fin.ofNat i

/-- A fresh vertex buffer with the default hint, then `upload(12, bytesA)`. -/
def buffer_of_12 : Exec gl_buffer := do
  let b ← gl_context.create_buffer_object .vertex_buffer
  b.upload 12 sample_bytes

/-- On the buffer of `buffer_of_12`: `update(start, size, bytesC)`. -/
def update_buffer_of_12 (start size : Nat) : Exec Unit := do
  let b ← buffer_of_12
  b.update start size sample_bytes

/-- The round trip `upload(size, data)` then `update(0, buffer_size, newData)`. -/
def upload_then_update (self : gl_buffer) (size : Nat) (data newData : Ptr) : Exec gl_buffer := do
  let b ← self.upload size data
  b.update 0 b.buffer_size newData
  pure b

/-- Two textures `T1`, `T2`; level 0 of `T1` is uploaded, then `T2` is bound, then
`T1.generate_mip_levels()`.  Returns `(T1, T2)`. -/
def mipmaps_after_other_bind : Exec (gl_texture × gl_texture) := do
  let t1 ← gl_context.create_texture 4 4 .rgba ""
  let t2 ← gl_context.create_texture 4 4 .rgba ""
  t1.upload 0 0 0 4 4 .rgba sample_bytes
  t2.bind
  t1.generate_mip_levels
  pure (t1, t2)

/-- The changes made to texture `name` by a run. -/
def Outcome.texture_writes {α : Type} (o : Outcome α) (name : GLuint) : List TexWrite :=
  o.world.gl.texture_writes name

/-- Whether a run returned. -/
def Outcome.is_returned {α : Type} : Outcome α → Bool
  | .returned _ _ => true
  | .fatal _ _ => false

/-- A vertex buffer object that was never uploaded. -/
def empty_vertex_buffer : gl_buffer :=
  { usage := .vertex_buffer, hint := .static_draw, buffer := 1, buffer_size := 0 }

/-- A vertex buffer object whose last upload had 12 bytes. -/
def vertex_buffer_12 : gl_buffer :=
  { usage := .vertex_buffer, hint := .static_draw, buffer := 1, buffer_size := 12 }

/-- The value a run returned, if it returned. -/
def Outcome.value? {α : Type} : Outcome α → Option α
  | .returned a _ => some a
  | .fatal _ _ => none

/-! ## Running computations -/

theorem Exec.pure_apply {α : Type} (a : α) (w : World) :
    (pure a : Exec α) w = .returned a w := rfl

theorem Exec.bind_apply {α β : Type} (x : Exec α) (f : α → Exec β) (w : World) :
    (x >>= f) w = Exec.andThen x f w := rfl

theorem Exec.pure_inj {α : Type} {a b : α} (h : (pure a : Exec α) = pure b) : a = b := by
  have := congrFun h (World.initial false)
  simp only [Exec.pure_apply, Outcome.returned.injEq] at this
  exact this.1

theorem Exec.fatal_ne_pure {α : Type} {m : String} {b : α}
    (h : (debug_LOG_FATAL m : Exec α) = pure b) : False := by
  have := congrFun h (World.initial false)
  simp [Exec.pure_apply, debug_LOG_FATAL] at this

theorem usage_to_gl_cases {u : gfx_api.buffer.usage} {t : GLenum} (h : u.to_gl = pure t) :
    t = GL_ARRAY_BUFFER ∨ t = GL_ELEMENT_ARRAY_BUFFER := by
  cases u with
  | vertex_buffer => exact Or.inl (Exec.pure_inj h).symm
  | index_buffer => exact Or.inr (Exec.pure_inj h).symm
  | unrecognised raw => exact (Exec.fatal_ne_pure h).elim

theorem usage_to_gl_of_valid {u : gfx_api.buffer.usage} (h : u.valid = true) :
    ∃ t, u.to_gl = pure t := by
  cases u with
  | vertex_buffer => exact ⟨_, rfl⟩
  | index_buffer => exact ⟨_, rfl⟩
  | unrecognised raw => simp [gfx_api.buffer.usage.valid] at h

theorem hint_to_gl_of_valid {u : gfx_api.context.buffer_storage_hint} (h : u.valid = true) :
    ∃ t, u.to_gl = pure t := by
  cases u with
  | static_draw => exact ⟨_, rfl⟩
  | dynamic_draw => exact ⟨_, rfl⟩
  | stream_draw => exact ⟨_, rfl⟩
  | unrecognised raw => simp [gfx_api.context.buffer_storage_hint.valid] at h

theorem pixel_format_to_gl_of_valid {f : gfx_api.pixel_format} (h : f.valid = true) :
    ∃ c, f.to_gl = pure c := by
  cases f with
  | rgba => exact ⟨_, rfl⟩
  | rgb => exact ⟨_, rfl⟩
  | compressed_rgb => exact ⟨_, rfl⟩
  | compressed_rgba => exact ⟨_, rfl⟩
  | unrecognised raw => simp [gfx_api.pixel_format.valid] at h

/-! ## The driver model -/

theorem bound_buffer_glBindBuffer (gl : GLState) {t : GLenum} (b : GLuint)
    (ht : t = GL_ARRAY_BUFFER ∨ t = GL_ELEMENT_ARRAY_BUFFER) :
    (gl.glBindBuffer t b).bound_buffer t = some b := by
  rcases ht with rfl | rfl <;>
    simp [GLState.glBindBuffer, GLState.bound_buffer, GLState.record, GL_ARRAY_BUFFER,
      GL_ELEMENT_ARRAY_BUFFER]

theorem calls_glBindBuffer (gl : GLState) (t : GLenum) (b : GLuint) :
    (gl.glBindBuffer t b).calls = gl.calls ++ [.BindBuffer t b] := by
  simp only [GLState.glBindBuffer, GLState.record]
  split_ifs <;> rfl

theorem buffer_store_glBindBuffer (gl : GLState) (t : GLenum) (b : GLuint) :
    (gl.glBindBuffer t b).buffer_store = gl.buffer_store := by
  simp only [GLState.glBindBuffer, GLState.record]
  split_ifs <;> rfl

theorem calls_glTexImage2D (gl : GLState) (target : GLenum) (level : Int) (c : GLenum)
    (width height : Int) (border : Nat) (format type : GLenum) :
    (gl.glTexImage2D target level c width height border format type).calls
      = gl.calls ++ [.TexImage2D target level c width height border format type] := by
  simp only [GLState.glTexImage2D, GLState.record]
  split <;> rfl

theorem tex_image_levels_append (a b : List GLCall) :
    tex_image_levels (a ++ b) = tex_image_levels a ++ tex_image_levels b := by
  induction a with
  | nil => rfl
  | cons c rest ih => cases c <;> simp [tex_image_levels, ih]

theorem tex_image_levels_map (c : GLenum) (width height : Nat) (is : List Nat) :
    tex_image_levels (is.map (fun i =>
        GLCall.TexImage2D GL_TEXTURE_2D (to_GLint i) c (to_GLsizei (width >>> i))
          (to_GLsizei (height >>> i)) 0 c GL_UNSIGNED_BYTE))
      = is.map (fun i => (to_GLint i, to_GLsizei (width >>> i), to_GLsizei (height >>> i))) := by
  induction is with
  | nil => rfl
  | cons i rest ih => simp [tex_image_levels, ih]

/-! ## `gl_buffer::upload` and `gl_buffer::update` -/

theorem gl_buffer.upload_run (self : gl_buffer) (size : Nat) (data : Ptr) (w : World)
    {t h : GLenum} (ht : self.usage.to_gl = pure t) (hh : self.hint.to_gl = pure h) :
    self.upload size data w = .returned { self with buffer_size := size }
      { w with gl := (w.gl.glBindBuffer t self.buffer).glBufferData t size data h } := by
  simp only [gl_buffer.upload, ht, hh, Exec.bind_apply, Exec.andThen, Exec.pure_apply, Exec.gl]

theorem glBufferData_after_bind (gl : GLState) {t : GLenum} (b : GLuint) (size : Nat)
    (data : Ptr) (h : GLenum) (ht : t = GL_ARRAY_BUFFER ∨ t = GL_ELEMENT_ARRAY_BUFFER) :
    ((gl.glBindBuffer t b).glBufferData t size data h).buffer_store
        = (fun n => if n = b then some { data := bytes_at data size, usage := h }
            else gl.buffer_store n)
      ∧ ((gl.glBindBuffer t b).glBufferData t size data h).calls
        = gl.calls ++ [.BindBuffer t b, .BufferData t size h] := by
  simp [GLState.glBufferData, bound_buffer_glBindBuffer gl b ht, GLState.record,
    GLState.set_buffer_store, buffer_store_glBindBuffer, calls_glBindBuffer]

theorem gl_buffer.update_run (self : gl_buffer) (start size : Nat) (data : Ptr) (w : World)
    {t : GLenum} (ht : self.usage.to_gl = pure t) (h1 : start < self.buffer_size)
    (h2 : (start + size) % SIZE_T_RANGE ≤ self.buffer_size) (h3 : size ≠ 0) :
    self.update start size data w = .returned ()
      { w with gl := (w.gl.glBindBuffer t self.buffer).glBufferSubData t start size data } := by
  simp [gl_buffer.update, ht, Exec.bind_apply, Exec.andThen, Exec.pure_apply, Exec.gl, ASSERT,
    h1, h2, h3]

/-- Without wrap-around of `start + size`, a range that ends past the buffer is rejected and
nothing reaches the driver. -/
theorem gl_buffer.update_rejects_range_without_wrap (self : gl_buffer) (start size : Nat)
    (data : Ptr) (w : World) (hfit : start + size < SIZE_T_RANGE)
    (hpast : self.buffer_size < start + size) :
    ∃ cause, self.update start size data w = .fatal cause w := by
  by_cases h1 : start < self.buffer_size
  · refine ⟨.assertion "start + size <= buffer_size", ?_⟩
    have h2 : ¬ (start + size) % SIZE_T_RANGE ≤ self.buffer_size := by
      rw [Nat.mod_eq_of_lt hfit]; omega
    simp [gl_buffer.update, Exec.bind_apply, Exec.andThen, ASSERT, h1, h2]
  · refine ⟨.assertion "start < buffer_size", ?_⟩
    simp [gl_buffer.update, Exec.bind_apply, Exec.andThen, ASSERT, h1]

/-! ## The table `exp_ceil` against the real logarithm -/

theorem e_lower : ((E_LO : ℝ) / E_DEN) < Real.exp 1 := by
  have h := Real.sum_le_exp_of_nonneg (x := 1) zero_le_one 28
  refine lt_of_lt_of_le ?_ h
  simp only [Finset.sum_range_succ, Finset.sum_range_zero, Nat.factorial, E_LO, E_DEN]
  norm_num

theorem e_upper : Real.exp 1 < ((E_HI : ℝ) / E_DEN) := by
  have h := Real.exp_bound' (x := 1) zero_le_one le_rfl (n := 28) (by norm_num)
  refine lt_of_le_of_lt h ?_
  simp only [Finset.sum_range_succ, Finset.sum_range_zero, Nat.factorial, E_HI, E_DEN]
  norm_num

theorem exp_ceil_indexed_ok :
    exp_ceil_indexed.all (fun p => exp_ceil_check p.1 p.2) = true := by decide

theorem exp_ceil_indexed_fst : exp_ceil_indexed.map Prod.fst = List.range' 1 44 := by decide

theorem exp_ceil_indexed_snd : exp_ceil_indexed.map Prod.snd = exp_ceil := by decide

theorem two_pow_64_lt_exp_45 : ((2 : ℝ) ^ 64) < Real.exp 45 := by
  have h : ((E_LO : ℝ) / E_DEN) ^ 45 ≤ Real.exp 1 ^ 45 :=
    pow_le_pow_left₀ (by simp [E_LO, E_DEN]; norm_num) e_lower.le 45
  have h2 : Real.exp 1 ^ 45 = Real.exp 45 := by
    exact_mod_cast Real.exp_one_pow 45
  rw [← h2]
  refine lt_of_lt_of_le ?_ h
  simp only [E_LO, E_DEN]
  norm_num

/-- An entry `t` that passes the check for exponent `k` is the least integer above `e^k`:
a natural number `m >= 1` reaches `t` exactly when `k <= ln m`. -/
theorem exp_ceil_check_sound (k t : Nat) (h : exp_ceil_check k t = true) (m : Nat)
    (hm : 1 ≤ m) : t ≤ m ↔ k ≤ ⌊Real.log m⌋₊ := by
  simp only [exp_ceil_check, Bool.and_eq_true, decide_eq_true_eq] at h
  obtain ⟨hlo, hhi⟩ := h
  have hD : (0 : ℝ) < (E_DEN : ℝ) ^ k := by
    have : (0 : ℝ) < (E_DEN : ℝ) := by simp [E_DEN]
    positivity
  have hmpos : (0 : ℝ) < (m : ℝ) := by exact_mod_cast hm
  have hexp : Real.exp 1 ^ k = Real.exp k := Real.exp_one_pow k
  have hlo' : (t : ℝ) < ((E_LO : ℝ) / E_DEN) ^ k + 1 := by
    rw [div_pow, div_add_one (ne_of_gt hD), lt_div_iff₀ hD]
    exact_mod_cast hlo
  have hhi' : ((E_HI : ℝ) / E_DEN) ^ k ≤ (t : ℝ) := by
    rw [div_pow, div_le_iff₀ hD]
    exact_mod_cast hhi
  have h1 : ((E_LO : ℝ) / E_DEN) ^ k ≤ Real.exp k := by
    rw [← hexp]
    exact pow_le_pow_left₀ (by positivity) e_lower.le k
  have h2 : Real.exp k ≤ ((E_HI : ℝ) / E_DEN) ^ k := by
    rw [← hexp]
    exact pow_le_pow_left₀ (Real.exp_pos 1).le e_upper.le k
  rw [Nat.le_floor_iff (Real.log_nonneg (by exact_mod_cast hm)), Real.le_log_iff_exp_le hmpos]
  constructor
  · intro htm
    have : (t : ℝ) ≤ (m : ℝ) := by exact_mod_cast htm
    linarith
  · intro hem
    have : (t : ℝ) < (m : ℝ) + 1 := by linarith
    have : t < m + 1 := by exact_mod_cast this
    omega

theorem countP_indexed (m : Nat) (hm : 1 ≤ m) :
    ∀ ps : List (Nat × Nat), ps.all (fun p => exp_ceil_check p.1 p.2) = true →
      (ps.map Prod.snd).countP (fun t => t ≤ m)
        = (ps.map Prod.fst).countP (fun k => k ≤ ⌊Real.log m⌋₊)
  | [], _ => by simp
  | p :: ps, h => by
    simp only [List.all_cons, Bool.and_eq_true] at h
    have ih := countP_indexed m hm ps h.2
    have hp := exp_ceil_check_sound p.1 p.2 h.1 m hm
    simp only [List.map_cons, List.countP_cons, ih, decide_eq_true_eq, hp]

theorem countP_le_range_from_one (n : Nat) : ∀ N : Nat,
    (List.range' 1 N).countP (fun k => k ≤ n) = min N n
  | 0 => by simp
  | N + 1 => by
    rw [List.range'_concat, List.countP_append, countP_le_range_from_one n N]
    simp only [List.countP_cons, List.countP_nil, decide_eq_true_eq]
    split <;> omega

theorem floor_log_exact_eq_min (m : Nat) (hm : 1 ≤ m) :
    floor_log_exact m = min 44 ⌊Real.log m⌋₊ := by
  unfold floor_log_exact
  rw [← exp_ceil_indexed_snd, countP_indexed m hm _ exp_ceil_indexed_ok,
    exp_ceil_indexed_fst, countP_le_range_from_one]

/-- On the range of a 64-bit `size_t`, `floor_log_exact` is the floor of the natural
logarithm. -/
theorem floor_log_exact_eq_floor_real_log (m : Nat) (hm : 1 ≤ m) (h64 : m < 2 ^ 64) :
    floor_log_exact m = ⌊Real.log m⌋₊ := by
  rw [floor_log_exact_eq_min m hm]
  have hmpos : (0 : ℝ) < (m : ℝ) := by exact_mod_cast hm
  have hlt : Real.log m < 45 := by
    rw [Real.log_lt_iff_lt_exp hmpos]
    have : (m : ℝ) < 2 ^ 64 := by exact_mod_cast h64
    have h45 := two_pow_64_lt_exp_45
    norm_num at h45 ⊢
    linarith
  have : ⌊Real.log m⌋₊ < 45 := by
    rw [Nat.floor_lt (Real.log_nonneg (by exact_mod_cast hm))]
    exact_mod_cast hlt
  omega


/-! ## The conversion to `double` -/

theorem round_at_zero (x : Nat) : round_at x 0 = x := by
  simp [round_at, Nat.mod_one]

theorem round_at_bounds (x s : Nat) :
    2 * round_at x s ≤ 2 * x + 2 ^ s ∧ 2 * x ≤ 2 * round_at x s + 2 ^ s
      ∧ x / 2 ^ s * 2 ^ s ≤ round_at x s := by
  have hdm := Nat.div_add_mod x (2 ^ s)
  have hr : x % 2 ^ s < 2 ^ s := Nat.mod_lt _ (by positivity)
  have hsucc : (x / 2 ^ s + 1) * 2 ^ s = x / 2 ^ s * 2 ^ s + 2 ^ s := by ring
  have hcomm : 2 ^ s * (x / 2 ^ s) = x / 2 ^ s * 2 ^ s := by ring
  unfold round_at
  split_ifs with hc
  · rcases hc with hc | ⟨hc, -⟩ <;> omega
  · have hle : 2 * (x % 2 ^ s) ≤ 2 ^ s := by
      by_contra hc2
      exact hc (Or.inl (by omega))
    omega

theorem round_at_double_bounds (x s : Nat) (h53 : 2 ^ 53 ≤ x) (hs : 2 ^ (52 + s) ≤ x) :
    2 ^ 53 ≤ round_at x s ∧ round_at x s * 2 ^ 53 ≤ x * (2 ^ 53 + 1)
      ∧ x * (2 ^ 53 - 1) ≤ round_at x s * 2 ^ 53 := by
  rcases Nat.eq_zero_or_pos s with rfl | hpos
  · rw [round_at_zero]; omega
  · obtain ⟨h1, h2, h3⟩ := round_at_bounds x s
    have hpow : 2 ^ (52 + s) = 2 ^ 52 * 2 ^ s := pow_add 2 52 s
    have hq : 2 ^ 52 ≤ x / 2 ^ s := by
      rw [Nat.le_div_iff_mul_le (by positivity)]; omega
    have hqA : 2 ^ 52 * 2 ^ s ≤ x / 2 ^ s * 2 ^ s := Nat.mul_le_mul_right _ hq
    have hA : 2 ≤ 2 ^ s := by
      calc 2 = 2 ^ 1 := by norm_num
        _ ≤ 2 ^ s := Nat.pow_le_pow_right (by norm_num) hpos
    rw [hpow] at hs
    omega

theorem to_double_from_bounds (x : Nat) (h53 : 2 ^ 53 ≤ x) :
    ∀ n s, 2 ^ (52 + s) ≤ x →
      2 ^ 53 ≤ to_double_from x n s ∧ to_double_from x n s * 2 ^ 53 ≤ x * (2 ^ 53 + 1)
        ∧ x * (2 ^ 53 - 1) ≤ to_double_from x n s * 2 ^ 53
  | 0, s, hs => round_at_double_bounds x s h53 hs
  | n + 1, s, hs => by
    unfold to_double_from
    split_ifs with hc
    · exact round_at_double_bounds x s h53 hs
    · exact to_double_from_bounds x h53 n (s + 1) (by
        have : 52 + (s + 1) = 53 + s := by omega
        rw [this]; omega)

/-- Below `2^53` the conversion to `double` is exact. -/
theorem to_double_of_lt (x : Nat) (h : x < 2 ^ 53) : to_double x = x := by
  unfold to_double to_double_from
  rw [if_pos (by simpa using h), round_at_zero]

/-- From `2^53` on the conversion to `double` changes `x` by at most `x / 2^53`. -/
theorem to_double_bounds (x : Nat) (h53 : 2 ^ 53 ≤ x) :
    2 ^ 53 ≤ to_double x ∧ to_double x * 2 ^ 53 ≤ x * (2 ^ 53 + 1)
      ∧ x * (2 ^ 53 - 1) ≤ to_double x * 2 ^ 53 :=
  to_double_from_bounds x h53 11 0 (by omega)

/-! ## The table `exp_round` -/

theorem countP_map_le_countP_map {α β γ : Type} (f : α → β) (g : α → γ) (p : β → Bool)
    (q : γ → Bool) :
    ∀ l : List α, (∀ x ∈ l, p (f x) = true → q (g x) = true) →
      (l.map f).countP p ≤ (l.map g).countP q
  | [], _ => by simp
  | a :: l, h => by
    have ih := countP_map_le_countP_map f g p q l
      (fun x hx => h x (List.mem_cons_of_mem a hx))
    have ha := h a (List.mem_cons_self a l)
    simp only [List.map_cons, List.countP_cons]
    by_cases hp : p (f a) = true
    · simp only [hp, ha hp, if_true]; omega
    · by_cases hq : q (g a) = true
      · simp only [hp, hq, Bool.false_eq_true, if_true, if_false]; omega
      · simp only [hp, hq, Bool.false_eq_true, if_false]; omega

theorem exp_round_indexed_fst : exp_round_indexed.map Prod.fst = List.range' 1 44 := by decide

theorem exp_round_indexed_snd : exp_round_indexed.map Prod.snd = exp_round := by decide

theorem exp_round_indexed_ok :
    exp_round_indexed.all (fun p => exp_round_check p.1 p.2) = true := by decide

theorem exp_round_indexed_pow_ok :
    exp_round_indexed.all (fun p => exp_round_pow_check p.1 p.2) = true := by decide

theorem exp_ceil_round_ok :
    exp_ceil_round.all (fun p => exp_round_below_check p.1 p.2) = true := by decide

theorem exp_round_next_ceil_ok :
    exp_round_next_ceil.all (fun p => decide (2 * p.2 ≤ p.1)) = true := by decide

/-- A threshold of `exp_round` that passes the check lies between `exp(k - 2^(-a))` and the
double just below it, where `k - 2^(-a)` is the midpoint of `k` and the double below `k`:
the correctly rounded logarithm of a double is at least `k` exactly from this threshold
on. -/
theorem exp_round_check_sound (k t : Nat) (h : exp_round_check k t = true) :
    to_double t = t ∧ to_double (t - double_gap_below t) = t - double_gap_below t
      ∧ ((t - double_gap_below t : ℕ) : ℝ)
          < Real.exp ((k : ℝ) - 1 / 2 ^ half_ulp_exponent k)
      ∧ Real.exp ((k : ℝ) - 1 / 2 ^ half_ulp_exponent k) < (t : ℝ) := by
  simp only [exp_round_check, Bool.and_eq_true, decide_eq_true_eq] at h
  obtain ⟨⟨⟨hd1, hd2⟩, hlo⟩, hhi⟩ := h
  refine ⟨hd1, hd2, ?_, ?_⟩
  all_goals
    generalize half_ulp_exponent k = a at hlo hhi ⊢
    generalize t - double_gap_below t = p at hlo ⊢
    have hD : (0 : ℝ) < (E_DEN : ℝ) ^ k := by
      have : (0 : ℝ) < (E_DEN : ℝ) := by simp [E_DEN]
      positivity
    have hA : (0 : ℝ) < (2 : ℝ) ^ a := by positivity
    have hA1 : (1 : ℝ) ≤ (2 : ℝ) ^ a := one_le_pow₀ (by norm_num)
    have hexp : Real.exp 1 ^ k = Real.exp k := Real.exp_one_pow k
    have hsplit : Real.exp ((k : ℝ) - 1 / 2 ^ a)
        = Real.exp k * Real.exp (-(1 / 2 ^ a)) := by
      rw [sub_eq_add_neg, Real.exp_add]
    have hneg_lo : 1 - 1 / (2 : ℝ) ^ a ≤ Real.exp (-(1 / 2 ^ a)) := by
      have := Real.add_one_le_exp (-(1 / (2 : ℝ) ^ a))
      linarith
    have hneg_hi : Real.exp (-(1 / 2 ^ a)) ≤ 1 / (1 + 1 / (2 : ℝ) ^ a) := by
      rw [Real.exp_neg, one_div (1 + 1 / (2 : ℝ) ^ a)]
      apply inv_anti₀ (by positivity)
      have := Real.add_one_le_exp (1 / (2 : ℝ) ^ a)
      linarith
    have hklo : ((E_LO : ℝ) / E_DEN) ^ k ≤ Real.exp k := by
      rw [← hexp]
      exact pow_le_pow_left₀ (by positivity) e_lower.le k
    have hkhi : Real.exp k ≤ ((E_HI : ℝ) / E_DEN) ^ k := by
      rw [← hexp]
      exact pow_le_pow_left₀ (Real.exp_pos 1).le e_upper.le k
    rw [hsplit]
  · have hcast : (p : ℝ) * (E_DEN : ℝ) ^ k * 2 ^ a < (E_LO : ℝ) ^ k * (2 ^ a - 1) := by
      have h1 : 1 ≤ 2 ^ a := Nat.one_le_two_pow
      have := (Nat.cast_lt (α := ℝ)).2 hlo
      push_cast [Nat.cast_sub h1] at this
      exact this
    have hstep : (p : ℝ) < ((E_LO : ℝ) / E_DEN) ^ k * (1 - 1 / 2 ^ a) := by
      rw [div_pow, one_sub_div (ne_of_gt hA), div_mul_div_comm, lt_div_iff₀ (by positivity)]
      linarith
    have hnn : (0 : ℝ) ≤ 1 - 1 / 2 ^ a := by
      rw [sub_nonneg, div_le_one hA]; exact hA1
    calc (p : ℝ) < ((E_LO : ℝ) / E_DEN) ^ k * (1 - 1 / 2 ^ a) := hstep
      _ ≤ Real.exp k * (1 - 1 / 2 ^ a) := mul_le_mul_of_nonneg_right hklo hnn
      _ ≤ Real.exp k * Real.exp (-(1 / 2 ^ a)) :=
          mul_le_mul_of_nonneg_left hneg_lo (Real.exp_pos _).le
  · have hcast : (E_HI : ℝ) ^ k * 2 ^ a < (t : ℝ) * (E_DEN : ℝ) ^ k * (2 ^ a + 1) := by
      have := (Nat.cast_lt (α := ℝ)).2 hhi
      push_cast at this
      exact this
    have hstep : ((E_HI : ℝ) / E_DEN) ^ k * (1 / (1 + 1 / 2 ^ a)) < (t : ℝ) := by
      rw [div_pow, one_add_div (ne_of_gt hA), one_div_div, div_mul_div_comm,
        div_lt_iff₀ (by positivity)]
      linarith
    calc Real.exp k * Real.exp (-(1 / 2 ^ a))
        ≤ Real.exp k * (1 / (1 + 1 / 2 ^ a)) :=
          mul_le_mul_of_nonneg_left hneg_hi (Real.exp_pos _).le
      _ ≤ ((E_HI : ℝ) / E_DEN) ^ k * (1 / (1 + 1 / 2 ^ a)) :=
          mul_le_mul_of_nonneg_right hkhi (by positivity)
      _ < (t : ℝ) := hstep

/-- Every threshold of `exp_round` is the least double whose correctly rounded logarithm is
at least its exponent. -/
theorem exp_round_sound (k t : Nat) (h : (k, t) ∈ exp_round_indexed) :
    to_double t = t ∧ to_double (t - double_gap_below t) = t - double_gap_below t
      ∧ ((t - double_gap_below t : ℕ) : ℝ)
          < Real.exp ((k : ℝ) - 1 / 2 ^ half_ulp_exponent k)
      ∧ Real.exp ((k : ℝ) - 1 / 2 ^ half_ulp_exponent k) < (t : ℝ) :=
  exp_round_check_sound k t (List.all_eq_true.1 exp_round_indexed_ok (k, t) h)

/-! ## The loop bound of `create_texture` -/

theorem floor_log_le_44 (m : Nat) : floor_log m ≤ 44 := by
  have h := List.countP_le_length (fun t => decide (t ≤ to_double m)) (l := exp_round)
  have hl : exp_round.length = 44 := by decide
  unfold floor_log
  omega

theorem countP_le_range_from_one_le (n N : Nat) :
    (List.range' 1 N).countP (fun k => k ≤ n) ≤ n := by
  rw [countP_le_range_from_one]; exact min_le_right _ _

/-- The floor of the logarithm computed in `double` never exceeds the floor of the binary
logarithm. -/
theorem floor_log_le_log_two (m : Nat) : floor_log m ≤ Nat.log 2 m := by
  have hall := List.all_eq_true.1 exp_round_indexed_pow_ok
  have hstep : ∀ p ∈ exp_round_indexed,
      decide (p.2 ≤ to_double m) = true → decide (p.1 ≤ Nat.log 2 m) = true := by
    intro p hp hle
    have hchk := hall p hp
    simp only [exp_round_pow_check, Bool.and_eq_true, decide_eq_true_eq] at hchk hle ⊢
    obtain ⟨hpow, hk⟩ := hchk
    apply Nat.le_log_of_pow_le (by norm_num)
    by_cases h53 : m < 2 ^ 53
    · rw [to_double_of_lt m h53] at hle
      omega
    · have : 2 ^ p.1 ≤ 2 ^ 53 := Nat.pow_le_pow_right (by norm_num) (by omega)
      omega
  have h := countP_map_le_countP_map Prod.snd Prod.fst
    (fun t => decide (t ≤ to_double m)) (fun k => decide (k ≤ Nat.log 2 m))
    exp_round_indexed hstep
  rw [exp_round_indexed_snd, exp_round_indexed_fst] at h
  exact le_trans h (countP_le_range_from_one_le _ _)

/-- Rounding never lowers the floor of the logarithm. -/
theorem floor_log_exact_le_floor_log (m : Nat) : floor_log_exact m ≤ floor_log m := by
  have hall := List.all_eq_true.1 exp_ceil_round_ok
  have hstep : ∀ p ∈ exp_ceil_round,
      decide (p.1 ≤ m) = true → decide (p.2 ≤ to_double m) = true := by
    intro p hp hle
    have hchk := hall p hp
    simp only [exp_round_below_check, Bool.and_eq_true, Bool.or_eq_true,
      decide_eq_true_eq] at hchk hle ⊢
    obtain ⟨hrt, hmargin⟩ := hchk
    by_cases h53 : m < 2 ^ 53
    · rw [to_double_of_lt m h53]; omega
    · obtain ⟨hy53, -, hlow⟩ := to_double_bounds m (by omega)
      rcases hmargin with hsmall | hbig
      · omega
      · have h1 : p.1 * (2 ^ 53 - 1) ≤ m * (2 ^ 53 - 1) := Nat.mul_le_mul_right _ hle
        have h2 : p.2 * 2 ^ 53 ≤ to_double m * 2 ^ 53 := le_trans hbig (le_trans h1 hlow)
        exact Nat.le_of_mul_le_mul_right h2 (by positivity)
  have h := countP_map_le_countP_map Prod.fst Prod.snd
    (fun t => decide (t ≤ m)) (fun t => decide (t ≤ to_double m)) exp_ceil_round hstep
  have hf : exp_ceil_round.map Prod.fst = exp_ceil := by decide
  have hs : exp_ceil_round.map Prod.snd = exp_round := by decide
  rw [hf, hs] at h
  exact h

/-- Rounding raises the floor of the logarithm by at most one. -/
theorem floor_log_le_floor_log_exact_succ (m : Nat) : floor_log m ≤ floor_log_exact m + 1 := by
  have hall := List.all_eq_true.1 exp_round_next_ceil_ok
  have hstep : ∀ p ∈ exp_round_next_ceil,
      decide (p.1 ≤ to_double m) = true → decide (p.2 ≤ m) = true := by
    intro p hp hle
    have hchk := hall p hp
    simp only [decide_eq_true_eq] at hchk hle ⊢
    by_cases h53 : m < 2 ^ 53
    · rw [to_double_of_lt m h53] at hle; omega
    · obtain ⟨-, hup, -⟩ := to_double_bounds m (by omega)
      have h1 : p.1 * 2 ^ 53 ≤ to_double m * 2 ^ 53 := Nat.mul_le_mul_right _ hle
      omega
  have h := countP_map_le_countP_map Prod.fst Prod.snd
    (fun t => decide (t ≤ to_double m)) (fun t => decide (t ≤ m)) exp_round_next_ceil hstep
  have hf : exp_round_next_ceil.map Prod.fst = exp_round.tail := by decide
  have hs : exp_round_next_ceil.map Prod.snd = exp_ceil.take 43 := by decide
  rw [hf, hs] at h
  have htake : (exp_ceil.take 43).countP (fun t => decide (t ≤ m))
      ≤ exp_ceil.countP (fun t => decide (t ≤ m)) :=
    List.Sublist.countP_le _ (List.take_sublist 43 exp_ceil)
  have hcons : exp_round = 3 :: exp_round.tail := by decide
  have hhead : exp_round.countP (fun t => decide (t ≤ to_double m))
      ≤ exp_round.tail.countP (fun t => decide (t ≤ to_double m)) + 1 := by
    conv_lhs => rw [hcons]
    rw [List.countP_cons]
    split <;> omega
  unfold floor_log floor_log_exact
  omega

/-- On the range of a 64-bit `size_t` the floor of the logarithm computed in `double` is the
floor of the real natural logarithm, or one more. -/
theorem floor_log_near_real_log (m : Nat) (hm : 1 ≤ m) (h64 : m < 2 ^ 64) :
    ⌊Real.log m⌋₊ ≤ floor_log m ∧ floor_log m ≤ ⌊Real.log m⌋₊ + 1 := by
  rw [← floor_log_exact_eq_floor_real_log m hm h64]
  exact ⟨floor_log_exact_le_floor_log m, floor_log_le_floor_log_exact_succ m⟩

/-! ## `gl_context::create_texture` -/

theorem for_each_levels_run (width height : Nat) (fmt : gfx_api.pixel_format) (c : GLenum)
    (hc : fmt.to_gl = pure c) :
    ∀ (is : List Nat) (w : World),
      ∃ w', gl_context.for_each (gl_context.create_texture_level width height fmt) is w
            = .returned () w'
        ∧ w'.gl.calls = w.gl.calls ++ is.map (fun i =>
            GLCall.TexImage2D GL_TEXTURE_2D (to_GLint i) c (to_GLsizei (width >>> i))
              (to_GLsizei (height >>> i)) 0 c GL_UNSIGNED_BYTE)
  | [], w => ⟨w, rfl, by simp⟩
  | i :: rest, w => by
    obtain ⟨w', hrun, hcalls⟩ := for_each_levels_run width height fmt c hc rest
      { w with gl := (w.gl.glTexImage2D GL_TEXTURE_2D (to_GLint i) c
          (to_GLsizei (width >>> i)) (to_GLsizei (height >>> i)) 0 c GL_UNSIGNED_BYTE) }
    refine ⟨w', ?_, ?_⟩
    · rw [← hrun]
      simp only [gl_context.for_each, gl_context.create_texture_level, hc, Exec.bind_apply,
        Exec.andThen, Exec.pure_apply, Exec.gl]
    · rw [hcalls, calls_glTexImage2D]
      simp

/-- With a recognised format, `create_texture` returns, and its `glTexImage2D` calls are
those of the levels `0, 1, ..., mip_loop_bound - 1` in that order, level `i` with the
dimensions `width >> i` by `height >> i` narrowed to `GLsizei`. -/
theorem create_texture_levels (width height : Nat) (fmt : gfx_api.pixel_format)
    (filename : String) (w : World) (hfmt : fmt.valid = true) :
    ∃ t w', gl_context.create_texture width height fmt filename w = .returned t w'
      ∧ tex_image_levels w'.gl.calls = tex_image_levels w.gl.calls
          ++ (List.range (mip_loop_bound width height)).map
              (fun i => (to_GLint i, to_GLsizei (width >>> i), to_GLsizei (height >>> i))) := by
  obtain ⟨c, hc⟩ := pixel_format_to_gl_of_valid hfmt
  by_cases hlabel : (!filename.isEmpty && w.gl.debug_labels) = true
  · obtain ⟨w', hrun, hcalls⟩ := for_each_levels_run width height fmt c hc
      (List.range (mip_loop_bound width height))
      { w with gl := ((w.gl.glGenTextures.2.glBindTexture GL_TEXTURE_2D
          w.gl.glGenTextures.1).glObjectLabel GL_TEXTURE w.gl.glGenTextures.1 filename) }
    refine ⟨{ _id := w.gl.glGenTextures.1 }, w', ?_, ?_⟩
    · have hl : (!filename.isEmpty && (w.gl.glGenTextures.2.glBindTexture GL_TEXTURE_2D
          w.gl.glGenTextures.1).debug_labels) = true := by
        simpa [GLState.glBindTexture, GLState.glGenTextures, GLState.record, GL_TEXTURE_2D]
          using hlabel
      simp only [gl_context.create_texture, gl_texture.new, gl_texture.bind, gl_texture.id,
        Exec.bind_apply, Exec.andThen, Exec.pure_apply, Exec.gl, Exec.gl_get, Exec.gl_read, hl,
        if_true, hrun]
    · rw [hcalls, tex_image_levels_append, tex_image_levels_map]
      simp [GLState.glObjectLabel, GLState.glBindTexture, GLState.glGenTextures,
        GLState.record, GL_TEXTURE_2D, tex_image_levels_append, tex_image_levels]
  · obtain ⟨w', hrun, hcalls⟩ := for_each_levels_run width height fmt c hc
      (List.range (mip_loop_bound width height))
      { w with gl := (w.gl.glGenTextures.2.glBindTexture GL_TEXTURE_2D w.gl.glGenTextures.1) }
    refine ⟨{ _id := w.gl.glGenTextures.1 }, w', ?_, ?_⟩
    · have hl : ¬ (!filename.isEmpty && (w.gl.glGenTextures.2.glBindTexture GL_TEXTURE_2D
          w.gl.glGenTextures.1).debug_labels) = true := by
        simpa [GLState.glBindTexture, GLState.glGenTextures, GLState.record, GL_TEXTURE_2D]
          using hlabel
      simp only [gl_context.create_texture, gl_texture.new, gl_texture.bind, gl_texture.id,
        Exec.bind_apply, Exec.andThen, Exec.pure_apply, Exec.gl, Exec.gl_get, Exec.gl_read, hl,
        Bool.false_eq_true, if_false, hrun]
    · rw [hcalls, tex_image_levels_append, tex_image_levels_map]
      simp [GLState.glBindTexture, GLState.glGenTextures,
        GLState.record, GL_TEXTURE_2D, tex_image_levels_append, tex_image_levels]

/-- C1, at the input where the code departs from it: `create_texture(64, 64, rgba, "")` issues
`glTexImage2D` for the 5 levels `0, ..., 4` (64, 32, 16, 8, 4), because the loop bound is
`floor(ln 64) + 1 = 5`; the claim asks for `floor(log2 64) + 1 = 7` levels. -/
theorem create_texture_64_allocates_five_levels :
    tex_image_levels
        (gl_context.create_texture 64 64 .rgba "" (World.initial false)).world.gl.calls
      = [(0, 64, 64), (1, 32, 32), (2, 16, 16), (3, 8, 8), (4, 4, 4)]
    ∧ mip_loop_bound 64 64 = 5
    ∧ Nat.log 2 (max 64 64) + 1 = 7 := by
  refine ⟨by decide, by decide, ?_⟩
  simp [Nat.log]

/-- C2, at the input where the code departs from it: `create_texture(1, 8, rgba, "")`
allocates the levels 0, 1, 2 with the dimensions 1x8, 0x4, 0x2: levels 1 and 2 have width
`1 >> i = 0`, where the claim asks for `max(1, 1 >> i) = 1`. -/
theorem create_texture_1_by_8_allocates_zero_width_levels :
    tex_image_levels
        (gl_context.create_texture 1 8 .rgba "" (World.initial false)).world.gl.calls
      = [(0, 1, 8), (1, 0, 4), (2, 0, 2)]
    ∧ (max 1 (1 >>> 1), max 1 (8 >>> 1)) = (1, 4) := by
  decide

/-- The conversion to `GLint` / `GLsizei` keeps a value below `2^31`. -/
theorem to_GLint_of_lt (x : Nat) (h : x < 2 ^ 31) : to_GLint x = (x : Int) := by
  have h1 : x % 2 ^ 32 = x := Nat.mod_eq_of_lt (by omega)
  simp only [to_GLint, h1, h, if_true]
  rfl

/-- C10 as stated fails.  For `create_texture(2^32, 2^32, rgba, "")` the `size_t` value
`max(width, height) >> 0 = 2^32` is at least 1, but the dimensions are narrowed to the 32-bit
`GLsizei` and the driver receives level 0 as 0x0: the larger dimension passed to the driver is
zero.  And for `max(width, height) = 214643579785916` the loop bound is 34 while
`floor(ln(max)) + 1 = 33`, because the logarithm is computed in `double` and rounds up to
`33.0`. -/
theorem create_texture_zero_dimension_reaches_driver :
    (tex_image_levels (gl_context.create_texture (2 ^ 32) (2 ^ 32) .rgba ""
        (World.initial false)).world.gl.calls).head? = some (0, 0, 0)
    ∧ 1 ≤ max (2 ^ 32) (2 ^ 32) >>> 0
    ∧ mip_loop_bound 214643579785916 1 = 34
    ∧ ⌊Real.log (214643579785916 : ℕ)⌋₊ + 1 = 33 := by
  refine ⟨?_, by decide, by decide, ?_⟩
  · obtain ⟨t, w', hrun, hlev⟩ := create_texture_levels (2 ^ 32) (2 ^ 32) .rgba ""
      (World.initial false) rfl
    rw [hrun]
    show (tex_image_levels w'.gl.calls).head? = some (0, 0, 0)
    rw [hlev]
    decide
  · rw [← floor_log_exact_eq_floor_real_log 214643579785916 (by decide) (by decide)]
    decide

/-- C10, amended: for `width, height >= 1` in the range of a 64-bit `size_t`, the loop bound
of `create_texture`, `floor(log((double)max(width, height))) + 1`, is `floor(ln(max)) + 1` or
one more; it is at most `floor(log2(max(width, height))) + 1` and at most 45;
`create_texture` returns, and its `glTexImage2D` calls are those of the indices below the
bound with the dimensions narrowed to `GLsizei`; every such index `i` is below 64 (and
unchanged as a `GLint`), and the `size_t` value `max(width, height) >> i`, the larger of
`width >> i` and `height >> i`, is at least 1; when `max(width, height) < 2^31` the larger
dimension the driver receives is at least 1 as well. -/
theorem create_texture_loop_bounded (width height : Nat) (fmt : gfx_api.pixel_format)
    (filename : String) (w : World) (hw : 1 ≤ width) (_hh : 1 ≤ height)
    (hw64 : width < 2 ^ 64) (hh64 : height < 2 ^ 64) (hfmt : fmt.valid = true) :
    (⌊Real.log (max width height : ℕ)⌋₊ + 1 ≤ mip_loop_bound width height
        ∧ mip_loop_bound width height ≤ ⌊Real.log (max width height : ℕ)⌋₊ + 2)
      ∧ mip_loop_bound width height ≤ Nat.log 2 (max width height) + 1
      ∧ mip_loop_bound width height ≤ 45
      ∧ (∃ t w', gl_context.create_texture width height fmt filename w = .returned t w'
          ∧ tex_image_levels w'.gl.calls = tex_image_levels w.gl.calls
              ++ (List.range (mip_loop_bound width height)).map
                  (fun i => (to_GLint i, to_GLsizei (width >>> i), to_GLsizei (height >>> i))))
      ∧ ∀ i, i < mip_loop_bound width height →
          i < 64 ∧ to_GLint i = (i : Int) ∧ 1 ≤ max width height >>> i
            ∧ max (width >>> i) (height >>> i) = max width height >>> i
            ∧ (max width height < 2 ^ 31 →
                1 ≤ max (to_GLsizei (width >>> i)) (to_GLsizei (height >>> i))) := by
  have hm : 1 ≤ max width height := le_trans hw (le_max_left _ _)
  have hm64 : max width height < 2 ^ 64 := max_lt hw64 hh64
  have hne : ¬ max width height = 0 := by omega
  have hb : mip_loop_bound width height = floor_log (max width height) + 1 := by
    simp only [mip_loop_bound, hne, if_false]
  have hlog := floor_log_le_log_two (max width height)
  obtain ⟨hreal1, hreal2⟩ := floor_log_near_real_log _ hm hm64
  refine ⟨⟨by omega, by omega⟩, by omega, ?_,
    create_texture_levels width height fmt filename w hfmt, ?_⟩
  · have := floor_log_le_44 (max width height)
    omega
  · intro i hi
    have hi' : i ≤ Nat.log 2 (max width height) := by omega
    have hpow : 2 ^ i ≤ max width height := Nat.pow_le_of_le_log (by omega) hi'
    have h64 : Nat.log 2 (max width height) < 64 :=
      Nat.log_lt_of_lt_pow (by omega) hm64
    have hone : 1 ≤ max width height >>> i := by
      rw [Nat.shiftRight_eq_div_pow]
      exact (Nat.one_le_div_iff (by positivity)).2 hpow
    have hmax : max (width >>> i) (height >>> i) = max width height >>> i := by
      simp only [Nat.shiftRight_eq_div_pow]
      rcases le_total width height with hle | hle
      · rw [max_eq_right hle, max_eq_right (Nat.div_le_div_right hle)]
      · rw [max_eq_left hle, max_eq_left (Nat.div_le_div_right hle)]
    refine ⟨by omega, to_GLint_of_lt i (by omega), hone, hmax, ?_⟩
    intro h31
    have hwi : width >>> i < 2 ^ 31 := by
      rw [Nat.shiftRight_eq_div_pow]
      exact lt_of_le_of_lt (Nat.div_le_self _ _) (lt_of_le_of_lt (le_max_left _ _) h31)
    have hhi : height >>> i < 2 ^ 31 := by
      rw [Nat.shiftRight_eq_div_pow]
      exact lt_of_le_of_lt (Nat.div_le_self _ _) (lt_of_le_of_lt (le_max_right _ _) h31)
    simp only [to_GLsizei, to_GLint_of_lt _ hwi, to_GLint_of_lt _ hhi]
    have : ((1 : ℕ) : Int) ≤ ((max (width >>> i) (height >>> i) : ℕ) : Int) := by
      rw [hmax]; exact_mod_cast hone
    rw [Nat.cast_max] at this
    exact_mod_cast this

/-- C10, amended, at `create_texture(1920, 1080, rgba, "")`: the bound is 8 (at most
`floor(log2 1920) + 1 = 11`). -/
theorem create_texture_loop_bounded_witness :
    (1 ≤ 1920 ∧ 1 ≤ 1080 ∧ 1920 < 2 ^ 64 ∧ 1080 < 2 ^ 64
      ∧ gfx_api.pixel_format.rgba.valid = true ∧ mip_loop_bound 1920 1080 = 8)
    ∧ ((⌊Real.log (max 1920 1080 : ℕ)⌋₊ + 1 ≤ mip_loop_bound 1920 1080
        ∧ mip_loop_bound 1920 1080 ≤ ⌊Real.log (max 1920 1080 : ℕ)⌋₊ + 2)
      ∧ mip_loop_bound 1920 1080 ≤ Nat.log 2 (max 1920 1080) + 1
      ∧ mip_loop_bound 1920 1080 ≤ 45
      ∧ (∃ t w', gl_context.create_texture 1920 1080 .rgba "" (World.initial false)
            = .returned t w'
          ∧ tex_image_levels w'.gl.calls = tex_image_levels (World.initial false).gl.calls
              ++ (List.range (mip_loop_bound 1920 1080)).map
                  (fun i => (to_GLint i, to_GLsizei (1920 >>> i), to_GLsizei (1080 >>> i))))
      ∧ ∀ i, i < mip_loop_bound 1920 1080 →
          i < 64 ∧ to_GLint i = (i : Int) ∧ 1 ≤ max 1920 1080 >>> i
            ∧ max (1920 >>> i) (1080 >>> i) = max 1920 1080 >>> i
            ∧ (max 1920 1080 < 2 ^ 31 →
                1 ≤ max (to_GLsizei (1920 >>> i)) (to_GLsizei (1080 >>> i)))) :=
  ⟨by decide,
   create_texture_loop_bounded 1920 1080 .rgba "" (World.initial false) (by decide)
     (by decide) (by decide) (by decide) rfl⟩

/-- C3, at the input where the code departs from it: on a buffer of 12 bytes,
`update(8, 2^64 - 4, data)` has the mathematical sum `start + size = 2^64 + 4 > 12`, but the
64-bit sum wraps to `4`, both assertions pass, and the call reaches `glBufferSubData` with the
range `[8, 8 + 2^64 - 4)`.  The update `update(8, 8, data)` of the claim is rejected. -/
theorem update_wrapping_range_reaches_driver :
    12 < 8 + (2 ^ 64 - 4)
      ∧ (update_buffer_of_12 8 (2 ^ 64 - 4) (World.initial false)).is_returned = true
      ∧ buffer_sub_data_ranges
          (update_buffer_of_12 8 (2 ^ 64 - 4) (World.initial false)).world.gl.calls
        = [(8, 2 ^ 64 - 4)]
      ∧ (update_buffer_of_12 8 8 (World.initial false)).is_returned = false := by
  decide

/-- C4: an `update` whose `start` is not below `buffer_size` is terminated by the assertion
`start < buffer_size`, whatever `size` is (zero included), in the world it was called in: no
driver call, no warning. -/
theorem update_rejects_start_past_end (self : gl_buffer) (start size : Nat) (data : Ptr)
    (w : World) (h : self.buffer_size ≤ start) :
    self.update start size data w = .fatal (.assertion "start < buffer_size") w := by
  have h1 : ¬ start < self.buffer_size := by omega
  simp [gl_buffer.update, Exec.bind_apply, Exec.andThen, ASSERT, h1]

/-- C4 on a buffer that was never uploaded (`buffer_size = 0`): `update(0, 0, data)` and
`update(0, 5, data)` are both rejected. -/
theorem update_rejects_start_past_end_witness :
    empty_vertex_buffer.buffer_size ≤ 0
      ∧ gl_buffer.update empty_vertex_buffer 0 0 sample_bytes (World.initial false)
          = .fatal (.assertion "start < buffer_size") (World.initial false)
      ∧ gl_buffer.update empty_vertex_buffer 0 5 sample_bytes (World.initial false)
          = .fatal (.assertion "start < buffer_size") (World.initial false) :=
  ⟨by decide,
   update_rejects_start_past_end _ 0 0 sample_bytes (World.initial false) (by decide),
   update_rejects_start_past_end _ 0 5 sample_bytes (World.initial false) (by decide)⟩

/-- C5 as stated fails: on a buffer of 12 bytes `update(12, 0, data)` does not return, it is
terminated by the assertion `start < buffer_size`. -/
theorem update_zero_size_past_end_is_fatal :
    gl_buffer.update vertex_buffer_12 12 0 sample_bytes (World.initial false)
      = .fatal (.assertion "start < buffer_size") (World.initial false) := by
  rfl

/-- C5, amended: for `start < buffer_size`, `update(start, 0, data)` returns; the driver
state is the one it was called in (no bind, no write, same stores), and the only effect is
one more warning in the log. -/
theorem update_zero_size_noop (self : gl_buffer) (start : Nat) (data : Ptr) (w : World)
    (h : start < self.buffer_size) :
    self.update start 0 data w = .returned ()
      { w with warnings := w.warnings ++ ["Attempt to update buffer with 0 bytes of new data"] }
      := by
  have h2 : start % SIZE_T_RANGE ≤ self.buffer_size :=
    le_trans (Nat.mod_le _ _) (le_of_lt h)
  simp [gl_buffer.update, Exec.bind_apply, Exec.andThen, ASSERT, h, h2, debug_LOG_WARNING]

/-- C5, amended, on a buffer of 12 bytes: `update(4, 0, data)`. -/
theorem update_zero_size_noop_witness :
    4 < vertex_buffer_12.buffer_size
      ∧ gl_buffer.update vertex_buffer_12 4 0 sample_bytes (World.initial false)
          = .returned () { World.initial false with
              warnings := (World.initial false).warnings
                ++ ["Attempt to update buffer with 0 bytes of new data"] } :=
  ⟨by decide, update_zero_size_noop _ 4 sample_bytes (World.initial false) (by decide)⟩

/-- C6: when `to_gl(usage)` is `t` and `to_gl(hint)` is `h`, `upload(size, data)` returns, in
any world and whatever the previous `buffer_size`; the object keeps `usage`, `hint` and
`buffer` and has `buffer_size = size`; the data store of the buffer's own handle holds exactly
the `size` bytes at `data`, with hint `h`; no other data store changes; the driver saw
`glBindBuffer(t, buffer)` then `glBufferData(t, size, data, h)` and nothing else. -/
theorem upload_sets_size_and_store (self : gl_buffer) (size : Nat) (data : Ptr) (w : World)
    (t h : GLenum) (ht : self.usage.to_gl = pure t) (hh : self.hint.to_gl = pure h) :
    ∃ w', self.upload size data w
          = .returned { self with buffer_size := size } w'
      ∧ w'.gl.buffer_store self.buffer = some { data := bytes_at data size, usage := h }
      ∧ (bytes_at data size).length = size
      ∧ (∀ i, i < size → (bytes_at data size)[i]? = some (data i))
      ∧ (∀ n, n ≠ self.buffer → w'.gl.buffer_store n = w.gl.buffer_store n)
      ∧ w'.gl.calls = w.gl.calls ++ [.BindBuffer t self.buffer, .BufferData t size h]
      ∧ w'.warnings = w.warnings := by
  obtain ⟨hs, hc⟩ := glBufferData_after_bind w.gl self.buffer size data h (usage_to_gl_cases ht)
  refine ⟨_, gl_buffer.upload_run self size data w ht hh, ?_, ?_, ?_, ?_, hc, rfl⟩
  · simp [hs]
  · simp [bytes_at]
  · intro i hi
    simp [bytes_at, List.getElem?_map, List.getElem?_range hi]
  · intro n hn
    simp [hs, hn]

/-- C6 on a fresh vertex buffer with hint `static_draw`: `upload(12, bytesA)`. -/
theorem upload_sets_size_and_store_witness :
    ∃ w', gl_buffer.upload empty_vertex_buffer 12 sample_bytes (World.initial false)
          = .returned vertex_buffer_12 w'
      ∧ w'.gl.buffer_store 1
          = some { data := bytes_at sample_bytes 12, usage := GL_STATIC_DRAW }
      ∧ (bytes_at sample_bytes 12).length = 12
      ∧ (∀ i, i < 12 → (bytes_at sample_bytes 12)[i]? = some (sample_bytes i))
      ∧ (∀ n, n ≠ 1 → w'.gl.buffer_store n = (World.initial false).gl.buffer_store n)
      ∧ w'.gl.calls = (World.initial false).gl.calls
          ++ [.BindBuffer GL_ARRAY_BUFFER 1, .BufferData GL_ARRAY_BUFFER 12 GL_STATIC_DRAW]
      ∧ w'.warnings = (World.initial false).warnings :=
  upload_sets_size_and_store
    empty_vertex_buffer
    12 sample_bytes (World.initial false) GL_ARRAY_BUFFER GL_STATIC_DRAW rfl rfl

/-! ## The round trip `upload` then `update` -/

theorem glBufferSubData_after_bind (gl : GLState) {t : GLenum} (b : GLuint) (offset size : Nat)
    (data : Ptr) (s : BufferStore) (ht : t = GL_ARRAY_BUFFER ∨ t = GL_ELEMENT_ARRAY_BUFFER)
    (hs : gl.buffer_store b = some s) (hfit : offset + size ≤ s.data.length) :
    ((gl.glBindBuffer t b).glBufferSubData t offset size data).buffer_store b
      = some { data := s.data.take offset ++ bytes_at data size ++ s.data.drop (offset + size),
               usage := s.usage } := by
  simp [GLState.glBufferSubData, bound_buffer_glBindBuffer gl b ht, GLState.record,
    GLState.set_buffer_store, buffer_store_glBindBuffer, hs, hfit]

/-- C7 as stated fails for `size = 0`: `upload(0, data)` then `update(0, 0, newData)` is
terminated by the assertion `start < buffer_size`. -/
theorem upload_then_update_size_zero_is_fatal :
    (upload_then_update empty_vertex_buffer 0 sample_bytes sample_bytes
        (World.initial false)).is_returned = false := by
  decide

/-- C7, amended: for `size >= 1` (and `to_gl(usage) = t`, `to_gl(hint) = h`),
`upload(size, data)` then `update(0, buffer_size, newData)` returns, the object has
`buffer_size = size`, and the data store of its handle holds exactly the `size` bytes at
`newData`. -/
theorem upload_then_update_round_trip (self : gl_buffer) (size : Nat) (data newData : Ptr)
    (w : World) (t h : GLenum) (ht : self.usage.to_gl = pure t)
    (hh : self.hint.to_gl = pure h) (hsize : 1 ≤ size) :
    ∃ w', upload_then_update self size data newData w
          = .returned { self with buffer_size := size } w'
      ∧ w'.gl.buffer_store self.buffer
          = some { data := bytes_at newData size, usage := h }
      ∧ (bytes_at newData size).length = size
      ∧ (∀ i, i < size → (bytes_at newData size)[i]? = some (newData i)) := by
  have hcases := usage_to_gl_cases ht
  obtain ⟨hs, -⟩ := glBufferData_after_bind w.gl self.buffer size data h hcases
  have hstore : ((w.gl.glBindBuffer t self.buffer).glBufferData t size data h).buffer_store
      self.buffer = some { data := bytes_at data size, usage := h } := by
    simp [hs]
  have hlen : (bytes_at data size).length = size := by simp [bytes_at]
  have hupd := gl_buffer.update_run { self with buffer_size := size } 0 size newData
    { w with gl := (w.gl.glBindBuffer t self.buffer).glBufferData t size data h }
    (t := t) ht (by simpa using hsize)
    (by simpa using Nat.mod_le size SIZE_T_RANGE) (by omega)
  refine ⟨{ w with gl := (((w.gl.glBindBuffer t self.buffer).glBufferData t size data
    h).glBindBuffer t self.buffer).glBufferSubData t 0 size newData }, ?_, ?_, ?_, ?_⟩
  · simp only [upload_then_update, Exec.bind_apply, Exec.andThen,
      gl_buffer.upload_run self size data w ht hh, hupd, Exec.pure_apply]
  · have := glBufferSubData_after_bind
      ((w.gl.glBindBuffer t self.buffer).glBufferData t size data h) self.buffer 0 size newData
      { data := bytes_at data size, usage := h } hcases hstore (by simp [hlen])
    have hdrop : List.drop size (bytes_at data size) = [] :=
      List.drop_eq_nil_of_le (le_of_eq hlen)
    simpa [hlen, hdrop] using this
  · simp [bytes_at]
  · intro i hi
    simp [bytes_at, List.getElem?_map, List.getElem?_range hi]

/-- C7, amended, on a fresh vertex buffer: `upload(12, bytesA)` then
`update(0, 12, bytesA)`. -/
theorem upload_then_update_round_trip_witness :
    1 ≤ 12 ∧
    ∃ w', upload_then_update empty_vertex_buffer 12 sample_bytes sample_bytes
            (World.initial false)
          = .returned { empty_vertex_buffer with buffer_size := 12 } w'
      ∧ w'.gl.buffer_store empty_vertex_buffer.buffer
          = some { data := bytes_at sample_bytes 12, usage := GL_STATIC_DRAW }
      ∧ (bytes_at sample_bytes 12).length = 12
      ∧ (∀ i, i < 12 → (bytes_at sample_bytes 12)[i]? = some (sample_bytes i)) :=
  ⟨by decide,
   upload_then_update_round_trip empty_vertex_buffer 12 sample_bytes sample_bytes
     (World.initial false) GL_ARRAY_BUFFER GL_STATIC_DRAW rfl rfl (by decide)⟩

/-! ## The translators -/

/-- C8: each of the three `to_gl` translators, on each named enumerator, returns a constant
(the fatal `default:` branch is not reached), that constant is not `GL_INVALID_ENUM`, and
two named enumerators with the same result are the same enumerator. -/
theorem to_gl_total_injective :
    (∀ f : gfx_api.pixel_format, f.valid = true →
        ∃ c, f.to_gl = pure c ∧ c ≠ GL_INVALID_ENUM)
    ∧ (∀ f g : gfx_api.pixel_format, f.valid = true → g.valid = true →
        f.to_gl = g.to_gl → f = g)
    ∧ (∀ f : gfx_api.context.buffer_storage_hint, f.valid = true →
        ∃ c, f.to_gl = pure c ∧ c ≠ GL_INVALID_ENUM)
    ∧ (∀ f g : gfx_api.context.buffer_storage_hint, f.valid = true → g.valid = true →
        f.to_gl = g.to_gl → f = g)
    ∧ (∀ f : gfx_api.buffer.usage, f.valid = true →
        ∃ c, f.to_gl = pure c ∧ c ≠ GL_INVALID_ENUM)
    ∧ (∀ f g : gfx_api.buffer.usage, f.valid = true → g.valid = true →
        f.to_gl = g.to_gl → f = g) := by
  refine ⟨?_, ?_, ?_, ?_, ?_, ?_⟩
  · intro f hf
    cases f with
    | unrecognised raw => exact Bool.noConfusion hf
    | rgba => exact ⟨GL_RGBA, rfl, by decide⟩
    | rgb => exact ⟨GL_RGB, rfl, by decide⟩
    | compressed_rgb => exact ⟨GL_RGB_S3TC, rfl, by decide⟩
    | compressed_rgba => exact ⟨GL_RGBA_S3TC, rfl, by decide⟩
  · intro f g hf hg h
    cases f <;> cases g <;>
      first
      | rfl
      | exact Bool.noConfusion hf
      | exact Bool.noConfusion hg
      | exact absurd (Exec.pure_inj h) (by decide)
  · intro f hf
    cases f with
    | unrecognised raw => exact Bool.noConfusion hf
    | static_draw => exact ⟨GL_STATIC_DRAW, rfl, by decide⟩
    | dynamic_draw => exact ⟨GL_DYNAMIC_DRAW, rfl, by decide⟩
    | stream_draw => exact ⟨GL_STREAM_DRAW, rfl, by decide⟩
  · intro f g hf hg h
    cases f <;> cases g <;>
      first
      | rfl
      | exact Bool.noConfusion hf
      | exact Bool.noConfusion hg
      | exact absurd (Exec.pure_inj h) (by decide)
  · intro f hf
    cases f with
    | unrecognised raw => exact Bool.noConfusion hf
    | vertex_buffer => exact ⟨GL_ARRAY_BUFFER, rfl, by decide⟩
    | index_buffer => exact ⟨GL_ELEMENT_ARRAY_BUFFER, rfl, by decide⟩
  · intro f g hf hg h
    cases f <;> cases g <;>
      first
      | rfl
      | exact Bool.noConfusion hf
      | exact Bool.noConfusion hg
      | exact absurd (Exec.pure_inj h) (by decide)

/-- C8 at `rgba`, `static_draw` and `vertex_buffer`. -/
theorem to_gl_total_injective_witness :
    (gfx_api.pixel_format.rgba.valid = true
      ∧ gfx_api.context.buffer_storage_hint.static_draw.valid = true
      ∧ gfx_api.buffer.usage.vertex_buffer.valid = true)
    ∧ (∃ c, gfx_api.pixel_format.rgba.to_gl = pure c ∧ c ≠ GL_INVALID_ENUM)
    ∧ (∃ c, gfx_api.context.buffer_storage_hint.static_draw.to_gl = pure c
        ∧ c ≠ GL_INVALID_ENUM)
    ∧ (∃ c, gfx_api.buffer.usage.vertex_buffer.to_gl = pure c ∧ c ≠ GL_INVALID_ENUM)
    ∧ gfx_api.pixel_format.rgba = gfx_api.pixel_format.rgba
    ∧ gfx_api.context.buffer_storage_hint.static_draw
        = gfx_api.context.buffer_storage_hint.static_draw
    ∧ gfx_api.buffer.usage.vertex_buffer = gfx_api.buffer.usage.vertex_buffer :=
  ⟨⟨rfl, rfl, rfl⟩,
   to_gl_total_injective.1 .rgba rfl,
   to_gl_total_injective.2.2.1 .static_draw rfl,
   to_gl_total_injective.2.2.2.2.1 .vertex_buffer rfl,
   to_gl_total_injective.2.1 .rgba .rgba rfl rfl rfl,
   to_gl_total_injective.2.2.2.1 .static_draw .static_draw rfl rfl rfl,
   to_gl_total_injective.2.2.2.2.2 .vertex_buffer .vertex_buffer rfl rfl rfl⟩

/-! ## Which texture a texture operation writes to -/

/-- The method `gl_texture::upload` binds first: in any world, whatever texture was bound, the rectangle
is written to the texture's own object and to no other. -/
theorem gl_texture.upload_targets_self (self : gl_texture)
    (mip_level offset_x offset_y width height : Nat) (fmt : gfx_api.pixel_format) (data : Ptr)
    (w : World) (c : GLenum) (hc : fmt.to_gl = pure c) :
    ∃ w', self.upload mip_level offset_x offset_y width height fmt data w = .returned () w'
      ∧ ∀ n, w'.gl.texture_writes n
          = if n = self._id then
              w.gl.texture_writes n
                ++ [.sub_image (to_GLint mip_level) (to_GLint offset_x) (to_GLint offset_y)
                      (to_GLsizei width) (to_GLsizei height) c]
            else w.gl.texture_writes n := by
  refine ⟨{ w with gl := ((w.gl.glBindTexture GL_TEXTURE_2D self._id).glTexSubImage2D
    GL_TEXTURE_2D (to_GLint mip_level) (to_GLint offset_x) (to_GLint offset_y)
    (to_GLsizei width) (to_GLsizei height) c GL_UNSIGNED_BYTE data) }, ?_, ?_⟩
  · simp only [gl_texture.upload, gl_texture.bind, hc, Exec.bind_apply, Exec.andThen,
      Exec.pure_apply, Exec.gl]
  · intro n
    simp [GLState.glTexSubImage2D, GLState.glBindTexture, GLState.bound_texture,
      GLState.record, GLState.add_texture_write]

/-- The method `gl_texture::generate_mip_levels` does not bind: the mip levels are derived for the
texture that is bound to `GL_TEXTURE_2D` when it is called, whichever texture it is called
on. -/
theorem gl_texture.generate_mip_levels_targets_binding (self : gl_texture) (w : World) :
    ∃ w', self.generate_mip_levels w = .returned () w'
      ∧ ∀ n, w'.gl.texture_writes n
          = if n = w.gl.texture_binding_2d then w.gl.texture_writes n ++ [.mipmap]
            else w.gl.texture_writes n := by
  refine ⟨{ w with gl := w.gl.glGenerateMipmap GL_TEXTURE_2D }, rfl, ?_⟩
  intro n
  simp [GLState.glGenerateMipmap, GLState.bound_texture, GLState.record,
    GLState.add_texture_write]

/-- C9, at the input where the code departs from it: with two 4x4 textures `T1` (name 1) and
`T2` (name 2), after `T1.upload(level 0)`, `T2.bind()`, `T1.generate_mip_levels()` the mip
levels were derived for `T2`; `T1` got none. -/
theorem generate_mip_levels_writes_to_other_texture :
    (mipmaps_after_other_bind (World.initial false)).value? = some ({ _id := 1 }, { _id := 2 })
    ∧ (mipmaps_after_other_bind (World.initial false)).texture_writes 1
        = [.image 0 GL_RGBA 4 4, .image 1 GL_RGBA 2 2, .sub_image 0 0 0 4 4 GL_RGBA]
    ∧ (mipmaps_after_other_bind (World.initial false)).texture_writes 2
        = [.image 0 GL_RGBA 4 4, .image 1 GL_RGBA 2 2, .mipmap] := by
  decide
